import Mathlib

/-!
Shallow embedding of EXOSIMS/Prototypes/TimeKeeping.py.

All time quantities are rational numbers: normalized times and durations in
days, absolute times in MJD (days).  The astropy conversion factor from the
year unit to the day unit is the Julian year, exactly 365.25 days, written
1461/4 below.  The Python class keeps both a quantity in years
(missionLife, extendedLife) and derived day-valued fields; the embedding
stores the year-valued inputs as plain numbers and applies the conversion
where the source calls .to with the day unit.

Python float arithmetic is modelled by exact rational arithmetic; every
claim below is about the arithmetic structure of the code, not about
floating-point rounding.
-/

namespace EXOSIMS

/-- days per year in astropy unit conversion: the Julian year, 365.25 days. -/
def yearToDay : ℚ := 1461 / 4

/-- State of TimeKeeping.  Fields mirror the attributes set in
TimeKeeping.__init__ (the _outspec bookkeeping and the logger are pure
observers and are omitted). -/
structure TimeKeeping where
  missionStart : ℚ
  missionLife : ℚ
  extendedLife : ℚ
  missionPortion : ℚ
  duration : ℚ
  nexttimeAvail : ℚ
  currentTimeNorm : ℚ
  currentTimeAbs : ℚ
  missionFinishAbs : ℚ
  missionFinishNorm : ℚ
deriving DecidableEq, Repr

/-- TimeKeeping.__init__: the three asserts become the failure cases of an
Option; on success the fields are set exactly as in the source.  missionLife
and extendedLife are given in years; missionFinishNorm converts each to days
as the source does with .to applied to the day unit. -/
def init (missionStart missionLife extendedLife missionPortion : ℚ) :
    Option TimeKeeping :=
  if missionLife < 0 then none
  else if extendedLife < 0 then none
  else if ¬ (0 < missionPortion ∧ missionPortion ≤ 1) then none
  else some
    { missionStart := missionStart
      missionLife := missionLife
      extendedLife := extendedLife
      missionPortion := missionPortion
      duration := 14
      nexttimeAvail := 0
      currentTimeNorm := 0
      currentTimeAbs := missionStart
      missionFinishAbs := missionStart + missionLife * yearToDay + extendedLife * yearToDay
      missionFinishNorm := missionLife * yearToDay + extendedLife * yearToDay }

/-- TimeKeeping.allocate_time.  Returns the post-call state together with the
boolean success flag; the logging and caller-introspection lines are pure
observers with no effect on state or result and are omitted.  The function is
total: rejection is reported only through the boolean, never by an error. -/
def allocate_time (tk : TimeKeeping) (dt : ℚ) : TimeKeeping × Bool :=
  if dt > tk.duration then (tk, false)
  else if dt < 0 then (tk, false)
  else if tk.currentTimeNorm + dt > tk.nexttimeAvail + tk.duration then
    let n := tk.nexttimeAvail +
      (tk.duration + ((1 - tk.missionPortion) / tk.missionPortion) * tk.duration)
    ({ tk with
        nexttimeAvail := n
        currentTimeNorm := n + dt
        currentTimeAbs := tk.missionStart + (n + dt) }, true)
  else
    ({ tk with
        currentTimeNorm := tk.currentTimeNorm + dt
        currentTimeAbs := tk.currentTimeAbs + dt }, true)

/-- TimeKeeping.mission_is_over: the pure query currentTimeNorm >
missionFinishNorm.  It takes the state and returns only a Bool: no mutation. -/
def mission_is_over (tk : TimeKeeping) : Bool :=
  decide (tk.currentTimeNorm > tk.missionFinishNorm)

/-- TimeKeeping.update_times (deprecated path): raises ValueError when
dt < 0 (modelled as none, with the state discarded exactly as a Python raise
leaves the object untouched, since the raise precedes every assignment);
otherwise adds dt to currentTimeNorm and currentTimeAbs. -/
def update_times (tk : TimeKeeping) (dt : ℚ) : Option TimeKeeping :=
  if dt < 0 then none
  else some
    { tk with
        currentTimeNorm := tk.currentTimeNorm + dt
        currentTimeAbs := tk.currentTimeAbs + dt }

/-- TimeKeeping.duty_cycle (deprecated path): returns the post-call state and
the returned nexttime value. -/
def duty_cycle (tk : TimeKeeping) (currenttime : ℚ) : TimeKeeping × ℚ :=
  if currenttime > tk.nexttimeAvail + tk.duration then
    let n := tk.nexttimeAvail +
      (tk.duration + (1 - tk.missionPortion) / tk.missionPortion * tk.duration)
    ({ tk with nexttimeAvail := n }, n)
  else (tk, currenttime)

/-- Run a sequence of allocate_time calls, keeping only the states (the
booleans are observed per call and do not feed back into the state). -/
def runAllocs (tk : TimeKeeping) (dts : List ℚ) : TimeKeeping :=
  dts.foldl (fun s d => (allocate_time s d).1) tk

/-- The state invariant maintained by construction and allocation: the
absolute clock is the start plus the normalized clock, the normalized clock
never lies beyond the end of the current availability window, and the
construction-validated parameters stay in range. -/
def Inv (tk : TimeKeeping) : Prop :=
  tk.currentTimeAbs = tk.missionStart + tk.currentTimeNorm ∧
  tk.currentTimeNorm ≤ tk.nexttimeAvail + tk.duration ∧
  0 < tk.missionPortion ∧ tk.missionPortion ≤ 1 ∧ 0 < tk.duration

/-- In the branch dt > duration, allocate_time rejects and returns the state
unchanged. -/
lemma allocate_time_of_long (tk : TimeKeeping) (dt : ℚ) (h : tk.duration < dt) :
    allocate_time tk dt = (tk, false) := by
  simp [allocate_time, h]

/-- In the branch dt < 0, allocate_time rejects and returns the state
unchanged. -/
lemma allocate_time_of_neg (tk : TimeKeeping) (dt : ℚ)
    (h1 : ¬ tk.duration < dt) (h2 : dt < 0) :
    allocate_time tk dt = (tk, false) := by
  simp [allocate_time, h1, h2]

/-- The rollover branch of allocate_time, written out as an equation. -/
lemma allocate_time_of_rollover (tk : TimeKeeping) (dt : ℚ)
    (h1 : ¬ tk.duration < dt) (h2 : ¬ dt < 0)
    (h3 : tk.nexttimeAvail + tk.duration < tk.currentTimeNorm + dt) :
    allocate_time tk dt =
      ({ tk with
          nexttimeAvail := tk.nexttimeAvail +
            (tk.duration + ((1 - tk.missionPortion) / tk.missionPortion) * tk.duration)
          currentTimeNorm := (tk.nexttimeAvail +
            (tk.duration + ((1 - tk.missionPortion) / tk.missionPortion) * tk.duration)) + dt
          currentTimeAbs := tk.missionStart + ((tk.nexttimeAvail +
            (tk.duration + ((1 - tk.missionPortion) / tk.missionPortion) * tk.duration)) + dt) },
        true) := by
  simp [allocate_time, h1, h2, h3]

/-- The fit branch of allocate_time, written out as an equation. -/
lemma allocate_time_of_fit (tk : TimeKeeping) (dt : ℚ)
    (h1 : ¬ tk.duration < dt) (h2 : ¬ dt < 0)
    (h3 : ¬ tk.nexttimeAvail + tk.duration < tk.currentTimeNorm + dt) :
    allocate_time tk dt =
      ({ tk with
          currentTimeNorm := tk.currentTimeNorm + dt
          currentTimeAbs := tk.currentTimeAbs + dt }, true) := by
  simp [allocate_time, h1, h2, h3]

/-- allocate_time never touches the construction-time parameters. -/
lemma allocate_time_const (tk : TimeKeeping) (dt : ℚ) :
    (allocate_time tk dt).1.missionStart = tk.missionStart ∧
    (allocate_time tk dt).1.missionPortion = tk.missionPortion ∧
    (allocate_time tk dt).1.duration = tk.duration ∧
    (allocate_time tk dt).1.missionFinishNorm = tk.missionFinishNorm := by
  simp only [allocate_time]
  split_ifs <;> simp

/-- One allocate_time call preserves the state invariant. -/
lemma allocate_time_Inv (tk : TimeKeeping) (dt : ℚ) (h : Inv tk) :
    Inv (allocate_time tk dt).1 := by
  obtain ⟨habs, hwin, hp0, hp1, hd⟩ := h
  by_cases h1 : tk.duration < dt
  · rw [allocate_time_of_long tk dt h1]
    exact ⟨habs, hwin, hp0, hp1, hd⟩
  by_cases h2 : dt < 0
  · rw [allocate_time_of_neg tk dt h1 h2]
    exact ⟨habs, hwin, hp0, hp1, hd⟩
  by_cases h3 : tk.nexttimeAvail + tk.duration < tk.currentTimeNorm + dt
  · rw [allocate_time_of_rollover tk dt h1 h2 h3]
    refine ⟨rfl, ?_, hp0, hp1, hd⟩
    simp only []
    push_neg at h1
    linarith
  · rw [allocate_time_of_fit tk dt h1 h2 h3]
    push_neg at h3
    refine ⟨by simp only []; rw [habs]; ring, by simpa using h3, hp0, hp1, hd⟩

/-- Under the invariant, one allocate_time call never moves the normalized
clock backwards. -/
lemma allocate_time_mono (tk : TimeKeeping) (dt : ℚ) (h : Inv tk) :
    tk.currentTimeNorm ≤ (allocate_time tk dt).1.currentTimeNorm := by
  obtain ⟨habs, hwin, hp0, hp1, hd⟩ := h
  by_cases h1 : tk.duration < dt
  · rw [allocate_time_of_long tk dt h1]
  by_cases h2 : dt < 0
  · rw [allocate_time_of_neg tk dt h1 h2]
  by_cases h3 : tk.nexttimeAvail + tk.duration < tk.currentTimeNorm + dt
  · rw [allocate_time_of_rollover tk dt h1 h2 h3]
    simp only []
    push_neg at h2
    have hfrac : 0 ≤ (1 - tk.missionPortion) / tk.missionPortion :=
      div_nonneg (by linarith) hp0.le
    have hterm : 0 ≤ ((1 - tk.missionPortion) / tk.missionPortion) * tk.duration :=
      mul_nonneg hfrac hd.le
    linarith
  · rw [allocate_time_of_fit tk dt h1 h2 h3]
    simp only []
    push_neg at h2
    linarith

lemma runAllocs_nil (tk : TimeKeeping) : runAllocs tk [] = tk := rfl

lemma runAllocs_cons (tk : TimeKeeping) (d : ℚ) (ds : List ℚ) :
    runAllocs tk (d :: ds) = runAllocs (allocate_time tk d).1 ds := rfl

lemma runAllocs_append (tk : TimeKeeping) (l1 l2 : List ℚ) :
    runAllocs tk (l1 ++ l2) = runAllocs (runAllocs tk l1) l2 := by
  simp [runAllocs, List.foldl_append]

lemma runAllocs_Inv (tk : TimeKeeping) (dts : List ℚ) (h : Inv tk) :
    Inv (runAllocs tk dts) := by
  induction dts generalizing tk with
  | nil => exact h
  | cons d ds ih =>
    rw [runAllocs_cons]
    exact ih _ (allocate_time_Inv tk d h)

lemma runAllocs_mono (tk : TimeKeeping) (dts : List ℚ) (h : Inv tk) :
    tk.currentTimeNorm ≤ (runAllocs tk dts).currentTimeNorm := by
  induction dts generalizing tk with
  | nil => exact le_refl _
  | cons d ds ih =>
    rw [runAllocs_cons]
    exact le_trans (allocate_time_mono tk d h) (ih _ (allocate_time_Inv tk d h))

lemma runAllocs_const (tk : TimeKeeping) (dts : List ℚ) :
    (runAllocs tk dts).missionStart = tk.missionStart ∧
    (runAllocs tk dts).missionFinishNorm = tk.missionFinishNorm := by
  induction dts generalizing tk with
  | nil => exact ⟨rfl, rfl⟩
  | cons d ds ih =>
    rw [runAllocs_cons]
    obtain ⟨hs, hf⟩ := ih (allocate_time tk d).1
    obtain ⟨cs, _, _, cf⟩ := allocate_time_const tk d
    exact ⟨hs.trans cs, hf.trans cf⟩

lemma init_some_iff (s l e p : ℚ) :
    (init s l e p).isSome ↔ (0 ≤ l ∧ 0 ≤ e ∧ 0 < p ∧ p ≤ 1) := by
  unfold init
  split_ifs with h1 h2 h3
  · exact iff_of_false (by simp) (fun hh => absurd hh.1 (not_le.mpr h1))
  · exact iff_of_false (by simp) (fun hh => absurd hh.2.1 (not_le.mpr h2))
  · exact iff_of_true (by simp) ⟨not_lt.mp h1, not_lt.mp h2, h3.1, h3.2⟩
  · exact iff_of_false (by simp) (fun hh => h3 ⟨hh.2.2.1, hh.2.2.2⟩)

lemma init_eq_some (s l e p : ℚ) (tk0 : TimeKeeping) (h : init s l e p = some tk0) :
    tk0 = { missionStart := s, missionLife := l, extendedLife := e
            missionPortion := p, duration := 14, nexttimeAvail := 0
            currentTimeNorm := 0, currentTimeAbs := s
            missionFinishAbs := s + l * yearToDay + e * yearToDay
            missionFinishNorm := l * yearToDay + e * yearToDay } ∧
    0 ≤ l ∧ 0 ≤ e ∧ 0 < p ∧ p ≤ 1 := by
  unfold init at h
  split_ifs at h with h1 h2 h3
  exact ⟨(Option.some_injective _ h).symm, not_lt.mp h1, not_lt.mp h2, h3.1, h3.2⟩

/-- A freshly constructed state satisfies the invariant. -/
lemma init_Inv (s l e p : ℚ) (tk0 : TimeKeeping) (h : init s l e p = some tk0) :
    Inv tk0 := by
  obtain ⟨rfl, _, _, hp0, hp1⟩ := init_eq_some s l e p tk0 h
  exact ⟨by simp, by norm_num, hp0, hp1, by norm_num⟩

/-- Concrete state: the default construction of the source
(missionStart 60634 MJD, missionLife 6 years, no extension,
missionPortion 1/6), used to instantiate the theorems below. -/
def tkE : TimeKeeping :=
  { missionStart := 60634, missionLife := 6, extendedLife := 0
    missionPortion := 1/6, duration := 14, nexttimeAvail := 0
    currentTimeNorm := 0, currentTimeAbs := 60634
    missionFinishAbs := 60634 + 6 * yearToDay + 0 * yearToDay
    missionFinishNorm := 6 * yearToDay + 0 * yearToDay }

lemma init_tkE : init 60634 6 0 (1/6) = some tkE := by
  norm_num [init, tkE]

/-- Concrete state: a zero-lifetime construction, whose mission is over after
any positive allocation. -/
def tkZ : TimeKeeping :=
  { missionStart := 60634, missionLife := 0, extendedLife := 0
    missionPortion := 1, duration := 14, nexttimeAvail := 0
    currentTimeNorm := 0, currentTimeAbs := 60634
    missionFinishAbs := 60634 + 0 * yearToDay + 0 * yearToDay
    missionFinishNorm := 0 * yearToDay + 0 * yearToDay }

lemma init_tkZ : init 60634 0 0 1 = some tkZ := by
  norm_num [init, tkZ]

/-- C1: whenever 0 ≤ dt ≤ windowWidth and the request overflows the current
window (currentTimeNorm + dt > nexttimeAvail + duration), allocate_time takes
the rollover branch: it advances nexttimeAvail by exactly
duration + ((1 - missionPortion)/missionPortion) * duration, sets
currentTimeNorm to the new nexttimeAvail plus dt (not to the old provisional
time), sets currentTimeAbs to missionStart + currentTimeNorm, and returns
success.  The witness instantiates the 1/6-portion, 14-day default state and
exhibits nexttimeAvail advancing from 0 to 84 with currentTimeNorm = 84 + dt. -/
theorem C1_allocate_rollover (tk : TimeKeeping) (dt : ℚ)
    (h0 : 0 ≤ dt) (h1 : dt ≤ tk.duration)
    (h2 : tk.nexttimeAvail + tk.duration < tk.currentTimeNorm + dt) :
    (allocate_time tk dt).2 = true ∧
    (allocate_time tk dt).1.nexttimeAvail = tk.nexttimeAvail +
      (tk.duration + ((1 - tk.missionPortion) / tk.missionPortion) * tk.duration) ∧
    (allocate_time tk dt).1.currentTimeNorm = (allocate_time tk dt).1.nexttimeAvail + dt ∧
    (allocate_time tk dt).1.currentTimeAbs =
      tk.missionStart + (allocate_time tk dt).1.currentTimeNorm := by
  rw [allocate_time_of_rollover tk dt (not_lt.mpr h1) (not_lt.mpr h0) h2]
  exact ⟨rfl, rfl, rfl, rfl⟩

/-- Witness for C1: from the default construction after one 10-day allocation
(currentTimeNorm = 10, nexttimeAvail = 0), a second 10-day request overflows
the 14-day window; the rollover leaves nexttimeAvail = 14 + 5 * 14 = 84 and
currentTimeNorm = 84 + 10 = 94. -/
theorem C1_allocate_rollover_witness :
    (allocate_time (allocate_time tkE 10).1 10).2 = true ∧
    (allocate_time (allocate_time tkE 10).1 10).1.nexttimeAvail = 84 ∧
    (allocate_time (allocate_time tkE 10).1 10).1.currentTimeNorm = 84 + 10 := by
  have h := C1_allocate_rollover (allocate_time tkE 10).1 10
    (by norm_num) (by norm_num [allocate_time, tkE]) (by norm_num [allocate_time, tkE])
  refine ⟨h.1, ?_, ?_⟩ <;> norm_num [allocate_time, tkE]

/-- C2: allocate_time succeeds exactly when 0 ≤ dt ≤ duration, and the
success flag is independent of missionFinishNorm: replacing the mission
finish by any value leaves the result of every request unchanged, so a
request pushing past the mission finish is still granted. -/
theorem C2_allocate_success_iff (tk : TimeKeeping) (dt : ℚ) :
    ((allocate_time tk dt).2 = true ↔ (0 ≤ dt ∧ dt ≤ tk.duration)) ∧
    (∀ f : ℚ, (allocate_time { tk with missionFinishNorm := f } dt).2 =
      (allocate_time tk dt).2) := by
  constructor
  · by_cases h1 : tk.duration < dt
    · rw [allocate_time_of_long tk dt h1]
      exact iff_of_false (by simp) (fun hh => absurd hh.2 (not_le.mpr h1))
    by_cases h2 : dt < 0
    · rw [allocate_time_of_neg tk dt h1 h2]
      exact iff_of_false (by simp) (fun hh => absurd hh.1 (not_le.mpr h2))
    by_cases h3 : tk.nexttimeAvail + tk.duration < tk.currentTimeNorm + dt
    · rw [allocate_time_of_rollover tk dt h1 h2 h3]
      exact iff_of_true rfl ⟨not_lt.mp h2, not_lt.mp h1⟩
    · rw [allocate_time_of_fit tk dt h1 h2 h3]
      exact iff_of_true rfl ⟨not_lt.mp h2, not_lt.mp h1⟩
  · intro f
    simp only [allocate_time]
    split_ifs <;> rfl

/-- C3: whenever allocate_time reports failure, the returned state is the
input state, every field included; rejection is reported only through the
boolean since the function is total and never raises. -/
theorem C3_allocate_failure_pure (tk : TimeKeeping) (dt : ℚ)
    (h : (allocate_time tk dt).2 = false) :
    (allocate_time tk dt).1 = tk := by
  by_cases h1 : tk.duration < dt
  · rw [allocate_time_of_long tk dt h1]
  by_cases h2 : dt < 0
  · rw [allocate_time_of_neg tk dt h1 h2]
  by_cases h3 : tk.nexttimeAvail + tk.duration < tk.currentTimeNorm + dt
  · rw [allocate_time_of_rollover tk dt h1 h2 h3] at h
    exact absurd h (by simp)
  · rw [allocate_time_of_fit tk dt h1 h2 h3] at h
    exact absurd h (by simp)

/-- Witness for C3: a negative request against the default construction is
rejected and leaves the state exactly as it was. -/
theorem C3_allocate_failure_pure_witness :
    (allocate_time tkE (-1)).1 = tkE :=
  C3_allocate_failure_pure tkE (-1) (by norm_num [allocate_time, tkE])

/-- C4: starting from any successfully constructed state, across any sequence
of allocate_time calls (successful or not) the normalized clock is
non-decreasing: what it reads after a prefix of the calls is at most what it
reads after the whole sequence; and at every observation point the absolute
clock equals the construction start instant plus the normalized clock, the
two being updated in the same logical step on every mutation path. -/
theorem C4_monotone_and_sync (s l e p : ℚ) (tk0 : TimeKeeping)
    (h : init s l e p = some tk0) (pre post : List ℚ) :
    (runAllocs tk0 pre).currentTimeNorm ≤
      (runAllocs tk0 (pre ++ post)).currentTimeNorm ∧
    (runAllocs tk0 pre).currentTimeAbs = s + (runAllocs tk0 pre).currentTimeNorm := by
  have hInv0 : Inv tk0 := init_Inv s l e p tk0 h
  have hInv : Inv (runAllocs tk0 pre) := runAllocs_Inv tk0 pre hInv0
  constructor
  · rw [runAllocs_append]
    exact runAllocs_mono (runAllocs tk0 pre) post hInv
  · have hstart : (runAllocs tk0 pre).missionStart = s := by
      rw [(runAllocs_const tk0 pre).1]
      obtain ⟨rfl, -⟩ := init_eq_some s l e p tk0 h
      rfl
    rw [hInv.1, hstart]

/-- Witness for C4: with the default construction, after one 10-day
allocation the clock reads 10 days, at most the 94 days read after a further
10-day allocation, and the absolute clock is 60634 MJD plus the normalized
clock. -/
theorem C4_monotone_and_sync_witness :
    (runAllocs tkE [10]).currentTimeNorm ≤
      (runAllocs tkE ([10] ++ [10])).currentTimeNorm ∧
    (runAllocs tkE [10]).currentTimeAbs = 60634 + (runAllocs tkE [10]).currentTimeNorm :=
  C4_monotone_and_sync 60634 6 0 (1/6) tkE init_tkE [10] [10]

/-- C5: mission_is_over reads true exactly when currentTimeNorm strictly
exceeds missionFinishNorm (exact equality is not yet exhausted); it is a pure
query taking the state and returning only a Bool; and once it reads true on a
state reached from a construction by allocate_time calls, it still reads true
after any further sequence of allocate_time calls. -/
theorem C5_exhaustion (s l e p : ℚ) (tk0 : TimeKeeping)
    (h : init s l e p = some tk0) (pre : List ℚ) :
    (mission_is_over (runAllocs tk0 pre) = true ↔
      (runAllocs tk0 pre).missionFinishNorm < (runAllocs tk0 pre).currentTimeNorm) ∧
    (mission_is_over (runAllocs tk0 pre) = true →
      ∀ post : List ℚ, mission_is_over (runAllocs (runAllocs tk0 pre) post) = true) := by
  have hInv : Inv (runAllocs tk0 pre) := runAllocs_Inv tk0 pre (init_Inv s l e p tk0 h)
  constructor
  · simp [mission_is_over]
  · intro hover post
    have hmono := runAllocs_mono (runAllocs tk0 pre) post hInv
    have hfin := (runAllocs_const (runAllocs tk0 pre) post).2
    simp only [mission_is_over, gt_iff_lt, decide_eq_true_eq] at hover ⊢
    rw [hfin]
    exact lt_of_lt_of_le hover hmono

/-- Witness for C5: with a zero-lifetime construction, one 1-day allocation
exhausts the mission (1 > 0), and the flag stays true after a further
allocation that triggers a window rollover. -/
theorem C5_exhaustion_witness :
    (mission_is_over (runAllocs tkZ [1]) = true ↔
      (runAllocs tkZ [1]).missionFinishNorm < (runAllocs tkZ [1]).currentTimeNorm) ∧
    (mission_is_over (runAllocs tkZ [1]) = true →
      ∀ post : List ℚ, mission_is_over (runAllocs (runAllocs tkZ [1]) post) = true) :=
  C5_exhaustion 60634 0 0 1 tkZ init_tkZ [1]

/-- C6: boundary equality favors staying in the current window.  With the
window just started (currentTimeNorm = nexttimeAvail) a request of exactly
the window width succeeds without rollover, leaving nexttimeAvail unchanged
and currentTimeNorm at nexttimeAvail + duration; more generally any request
with 0 ≤ dt ≤ duration that lands exactly on the window boundary takes the
fit branch; and a request of duration + ε with ε > 0 fails for every state
whatever the window position. -/
theorem C6_boundary (tk : TimeKeeping) (h0 : 0 ≤ tk.duration)
    (hcur : tk.currentTimeNorm = tk.nexttimeAvail) :
    ((allocate_time tk tk.duration).2 = true ∧
     (allocate_time tk tk.duration).1.nexttimeAvail = tk.nexttimeAvail ∧
     (allocate_time tk tk.duration).1.currentTimeNorm = tk.nexttimeAvail + tk.duration) ∧
    (∀ (tk2 : TimeKeeping) (dt : ℚ), 0 ≤ dt → dt ≤ tk2.duration →
      tk2.currentTimeNorm + dt = tk2.nexttimeAvail + tk2.duration →
      (allocate_time tk2 dt).2 = true ∧
      (allocate_time tk2 dt).1.nexttimeAvail = tk2.nexttimeAvail ∧
      (allocate_time tk2 dt).1.currentTimeNorm = tk2.currentTimeNorm + dt) ∧
    (∀ (tk3 : TimeKeeping) (ε : ℚ), 0 < ε →
      (allocate_time tk3 (tk3.duration + ε)).2 = false) := by
  refine ⟨?_, ?_, ?_⟩
  · have hfit := allocate_time_of_fit tk tk.duration
      (lt_irrefl _) (not_lt.mpr h0) (by rw [hcur]; exact lt_irrefl _)
    rw [hfit]
    exact ⟨rfl, rfl, by simp only []; rw [hcur]⟩
  · intro tk2 dt hdt0 hdt1 hb
    have hfit := allocate_time_of_fit tk2 dt
      (not_lt.mpr hdt1) (not_lt.mpr hdt0) (by rw [← hb]; exact lt_irrefl _)
    rw [hfit]
    exact ⟨rfl, rfl, rfl⟩
  · intro tk3 ε hε
    rw [allocate_time_of_long tk3 (tk3.duration + ε) (by linarith)]

/-- Witness for C6: with the default construction (window width 14, window
just started at 0), a 14-day request succeeds and lands at 14, and a 15-day
request fails. -/
theorem C6_boundary_witness :
    (allocate_time tkE 14).2 = true ∧
    (allocate_time tkE 14).1.currentTimeNorm = 14 ∧
    (allocate_time tkE 15).2 = false := by
  have h := C6_boundary tkE (by norm_num [tkE]) rfl
  refine ⟨h.1.1, ?_, ?_⟩
  · have := h.1.2.2
    norm_num [tkE] at this ⊢
    exact this
  · have h15 : (15 : ℚ) = tkE.duration + 1 := by norm_num [tkE]
    rw [h15]
    exact h.2.2 tkE 1 one_pos

/-- C7: construction fails exactly when missionLife < 0 or extendedLife < 0
or missionPortion lies outside (0, 1]; every successfully constructed state
has missionFinishNorm equal to missionLife + extendedLife (converted to days
by the fixed year length), nexttimeAvail = 0, currentTimeNorm = 0,
currentTimeAbs at the start instant, and duration at the fixed 14-day
default. -/
theorem C7_construction (s l e p : ℚ) :
    ((init s l e p).isSome ↔ (0 ≤ l ∧ 0 ≤ e ∧ 0 < p ∧ p ≤ 1)) ∧
    (∀ tk0 : TimeKeeping, init s l e p = some tk0 →
      tk0.missionFinishNorm = (l + e) * yearToDay ∧
      tk0.nexttimeAvail = 0 ∧
      tk0.currentTimeNorm = 0 ∧
      tk0.currentTimeAbs = s ∧
      tk0.duration = 14) := by
  refine ⟨init_some_iff s l e p, ?_⟩
  intro tk0 h
  obtain ⟨rfl, -⟩ := init_eq_some s l e p tk0 h
  exact ⟨by simp only []; ring, rfl, rfl, rfl, rfl⟩

/-- C8: the legacy duty_cycle agrees with the rollover step of allocate_time.
When the supplied currenttime exceeds nexttimeAvail + duration it advances
nexttimeAvail by exactly duration + ((1 - missionPortion)/missionPortion) *
duration, the same increment the rollover branch of allocate_time applies,
and returns the new nexttimeAvail; otherwise it returns currenttime with the
state (and in particular nexttimeAvail) unchanged. -/
theorem C8_duty_cycle_agrees (tk : TimeKeeping) (t : ℚ) :
    (tk.nexttimeAvail + tk.duration < t →
      (duty_cycle tk t).1.nexttimeAvail = tk.nexttimeAvail +
        (tk.duration + ((1 - tk.missionPortion) / tk.missionPortion) * tk.duration) ∧
      (duty_cycle tk t).2 = (duty_cycle tk t).1.nexttimeAvail ∧
      (∀ dt : ℚ, 0 ≤ dt → dt ≤ tk.duration →
        tk.nexttimeAvail + tk.duration < tk.currentTimeNorm + dt →
        (allocate_time tk dt).1.nexttimeAvail = (duty_cycle tk t).1.nexttimeAvail)) ∧
    (¬ tk.nexttimeAvail + tk.duration < t →
      (duty_cycle tk t).1 = tk ∧ (duty_cycle tk t).2 = t) := by
  constructor
  · intro ht
    have hd : duty_cycle tk t =
        ({ tk with nexttimeAvail := tk.nexttimeAvail +
            (tk.duration + (1 - tk.missionPortion) / tk.missionPortion * tk.duration) },
          tk.nexttimeAvail +
            (tk.duration + (1 - tk.missionPortion) / tk.missionPortion * tk.duration)) := by
      simp [duty_cycle, ht]
    rw [hd]
    refine ⟨rfl, rfl, ?_⟩
    intro dt hdt0 hdt1 hroll
    rw [allocate_time_of_rollover tk dt (not_lt.mpr hdt1) (not_lt.mpr hdt0) hroll]
  · intro ht
    have hd : duty_cycle tk t = (tk, t) := by
      simp [duty_cycle, ht]
    rw [hd]
    exact ⟨rfl, rfl⟩

/-- C9: the legacy update_times raises exactly when dt < 0 (modelled as the
none result, with the state untouched since the raise precedes every
assignment); for dt ≥ 0 it adds dt to both currentTimeNorm and
currentTimeAbs with no window-fit check, leaving nexttimeAvail and every
other field unchanged. -/
theorem C9_update_times (tk : TimeKeeping) (dt : ℚ) :
    (update_times tk dt = none ↔ dt < 0) ∧
    (∀ tk2 : TimeKeeping, update_times tk dt = some tk2 →
      tk2.currentTimeNorm = tk.currentTimeNorm + dt ∧
      tk2.currentTimeAbs = tk.currentTimeAbs + dt ∧
      tk2.nexttimeAvail = tk.nexttimeAvail ∧
      tk2.duration = tk.duration ∧
      tk2.missionStart = tk.missionStart ∧
      tk2.missionFinishNorm = tk.missionFinishNorm) := by
  constructor
  · unfold update_times
    split_ifs with h
    · simpa using h
    · simpa using h
  · intro tk2 h
    unfold update_times at h
    split_ifs at h
    obtain rfl := Option.some_injective _ h
    exact ⟨rfl, rfl, rfl, rfl, rfl, rfl⟩

/-- C10: window-room invariant.  From any successfully constructed state,
after every sequence of allocate_time calls the normalized clock never lies
beyond the end of the current availability window:
currentTimeNorm ≤ nexttimeAvail + duration.  This is the invariant that makes
the normalized clock non-decreasing across rollovers. -/
theorem C10_window_room (s l e p : ℚ) (tk0 : TimeKeeping)
    (h : init s l e p = some tk0) (dts : List ℚ) :
    (runAllocs tk0 dts).currentTimeNorm ≤
      (runAllocs tk0 dts).nexttimeAvail + (runAllocs tk0 dts).duration :=
  (runAllocs_Inv tk0 dts (init_Inv s l e p tk0 h)).2.1

/-- Witness for C10: with the default construction, after two 10-day
allocations (the second of which rolls the window over) the clock reads
94 ≤ 84 + 14. -/
theorem C10_window_room_witness :
    (runAllocs tkE [10, 10]).currentTimeNorm ≤
      (runAllocs tkE [10, 10]).nexttimeAvail + (runAllocs tkE [10, 10]).duration :=
  C10_window_room 60634 6 0 (1/6) tkE init_tkE [10, 10]

end EXOSIMS
